import Mathlib

/-!
A verification development for the Go backend of the B2B mining platform
(src/go-backend/main.go, src/go-backend/backup/database.go,
src/go-backend/backup/mining.go and the auxiliary handler file).

Strings and byte slices are embedded as `List Nat` of byte values (the only
string operations the verified code performs are byte-level: splitting on the
colon byte 58, base64 coding, and byte comparison), except for the device and
session layers where the payload content is irrelevant and Lean `String` is
used directly.  `decimal.Decimal` (shopspring) is an exact decimal number;
its `Add`, `Sub`, `LessThan`, `LessThanOrEqual` used by the handlers are
exact rational operations, so balances are embedded as `ℚ`.
-/

namespace B2B

/-! ### Base64 (std alphabet, `encoding/base64` as used by the handlers) -/

/-- The standard base64 alphabet as byte values: index 0..63 to
A-Z, a-z, 0-9, plus, slash.  Mirrors `base64.StdEncoding`'s table. -/
def b64Char (n : Nat) : Nat :=
  if n < 26 then 65 + n
  else if n < 52 then 97 + (n - 26)
  else if n < 62 then 48 + (n - 52)
  else if n = 62 then 43
  else 47

/-- Inverse table lookup of the standard base64 alphabet; `none` on a byte
outside the alphabet (including the padding byte 61).  Mirrors the decode
table of `base64.StdEncoding`. -/
def b64Index (c : Nat) : Option Nat :=
  if 65 ≤ c ∧ c ≤ 90 then some (c - 65)
  else if 97 ≤ c ∧ c ≤ 122 then some (26 + (c - 97))
  else if 48 ≤ c ∧ c ≤ 57 then some (52 + (c - 48))
  else if c = 43 then some 62
  else if c = 47 then some 63
  else none

/-- Model of `base64.StdEncoding.EncodeToString` on a byte list: groups of three bytes
become four alphabet bytes; a trailing group of one or two bytes is padded
with 61 (the `=` byte). -/
def encodeB64 : List Nat → List Nat
  | [] => []
  | [b0] => [b64Char (b0 / 4), b64Char (b0 % 4 * 16), 61, 61]
  | [b0, b1] => [b64Char (b0 / 4), b64Char (b0 % 4 * 16 + b1 / 16), b64Char (b1 % 16 * 4), 61]
  | b0 :: b1 :: b2 :: rest =>
    b64Char (b0 / 4) :: b64Char (b0 % 4 * 16 + b1 / 16) ::
      b64Char (b1 % 16 * 4 + b2 / 64) :: b64Char (b2 % 64) :: encodeB64 rest

/-- Model of `base64.StdEncoding.DecodeString` on a byte list: input length must be a
multiple of four, padding bytes 61 may only close the final group, and any
byte outside the alphabet fails the decode (`none`). -/
def decodeB64 : List Nat → Option (List Nat)
  | [] => some []
  | c0 :: c1 :: c2 :: c3 :: rest =>
    match b64Index c0, b64Index c1 with
    | some n0, some n1 =>
      if c2 = 61 then
        (if c3 = 61 ∧ rest = [] then some [n0 * 4 + n1 / 16] else none)
      else
        match b64Index c2 with
        | some n2 =>
          if c3 = 61 then
            (if rest = [] then some [n0 * 4 + n1 / 16, n1 % 16 * 16 + n2 / 4] else none)
          else
            match b64Index c3, decodeB64 rest with
            | some n3, some bs =>
              some ((n0 * 4 + n1 / 16) :: (n1 % 16 * 16 + n2 / 4) :: (n2 % 4 * 64 + n3) :: bs)
            | _, _ => none
        | none => none
    | _, _ => none
  | _ => none

/-! ### splitHashedKey and compareHashes (src/go-backend/main.go lines 739-766) -/

/-- Loop of `splitHashedKey`: `cur` holds the bytes of the current segment in
reverse.  At a colon (byte 58) the segment is emitted and restarted; at the
end the final segment is emitted only if nonempty (the Go code appends
`hashedKey[start:]` only when `start < len(hashedKey)`). -/
def splitHashedKeyAux : List Nat → List Nat → List (List Nat)
  | [], cur => if cur = [] then [] else [cur.reverse]
  | c :: rest, cur =>
    if c = 58 then cur.reverse :: splitHashedKeyAux rest []
    else splitHashedKeyAux rest (c :: cur)

/-- Function `splitHashedKey` from src/go-backend/main.go: split a byte string on every
colon, dropping a trailing empty segment. -/
def splitHashedKey (s : List Nat) : List (List Nat) :=
  splitHashedKeyAux s []

/-- Function `compareHashes` from src/go-backend/main.go: false if the lengths differ,
otherwise accumulate the bitwise OR of the bytewise XORs (no early exit) and
compare the accumulator with zero. -/
def compareHashes (a b : List Nat) : Bool :=
  if a.length ≠ b.length then false
  else ((List.zipWith Nat.xor a b).foldl Nat.lor 0) == 0

/-! ### The key-derivation function and the credential store -/

/-- Base-256 little-endian digits: `toDigits k n` is the list of the `k` low
base-256 digits of `n`. -/
def toDigits : Nat → Nat → List Nat
  | 0, _ => []
  | k + 1, n => n % 256 :: toDigits k (n / 256)

/-- Recompose a base-256 little-endian digit list into a number. -/
def fromDigits : List Nat → Nat
  | [] => 0
  | d :: ds => d + 256 * fromDigits ds

/-- Modelled from the spec: `scrypt.Key(password, salt, 32768, 8, 1, 32)`
(golang.org/x/crypto/scrypt) is external library code absent from src/.  The
spec describes it as a deterministic memory-hard key-derivation function with
fixed cost parameters producing a 32-byte derived key from the password and
salt.  It is modelled as a deterministic mixing function of (password, salt)
whose output is exactly 32 bytes; the mixing itself is a stand-in, since the
spec fixes only the signature, determinism and output size. -/
def scryptKey (password salt : List Nat) : List Nat :=
  toDigits 32 ((password ++ salt).foldl (fun a b => (a * 131 + b) % 256 ^ 32) 0)

/-- The stored credential form built by `createUser`
(src/go-backend/main.go lines 213-225):
`base64(derivedKey) ++ ":" ++ base64(salt)`, with the derived key produced by
the key-derivation function from the plain key and the fresh salt. -/
def hashAccessKey (kdf : List Nat → List Nat → List Nat) (plainKey salt : List Nat) : List Nat :=
  encodeB64 (kdf plainKey salt) ++ 58 :: encodeB64 salt

/-- Function `verifyAccessKey` from src/go-backend/main.go lines 272-294: split the
stored form on the colon; fail closed unless exactly two segments; fail
closed if either segment fails base64 decoding; otherwise recompute the
derived key from the plain key and the extracted salt and compare with
`compareHashes`.  (`scrypt.Key` cannot fail on the fixed valid cost
parameters, so the Go error branch after it is dead.) -/
def verifyAccessKey (kdf : List Nat → List Nat → List Nat) (hashedKey plainKey : List Nat) : Bool :=
  match splitHashedKey hashedKey with
  | [p0, p1] =>
    match decodeB64 p0, decodeB64 p1 with
    | some storedHash, some salt => compareHashes storedHash (kdf plainKey salt)
    | _, _ => false
  | _ => false

/-! ### Users and the ledger (src/go-backend/main.go lines 543-637) -/

/-- The user row, restricted to the fields the verified handlers read or
write.  The eight decimal balance columns are exact rationals. -/
structure GoUser where
  usdtBalance : ℚ
  btcBalance : ℚ
  hashPower : ℚ
  baseHashPower : ℚ
  referralHashBonus : ℚ
  gbtcBalance : ℚ
  unclaimedBalance : ℚ
  totalReferralEarnings : ℚ
  isAdmin : Bool
  isFrozen : Bool
  isBanned : Bool
  hasStartedMining : Bool
  accessKey : List Nat
deriving DecidableEq

/-- Function `createUser` (src/go-backend/main.go lines 213-269): the INSERT sets all
eight balance columns to exact decimal zero literals and the flag columns
take their schema defaults (false); the stored credential is the hashed key
passed in.  Only the fields of `GoUser` are modelled. -/
def createUser (hashedKey : List Nat) : GoUser :=
  { usdtBalance := 0, btcBalance := 0, hashPower := 0, baseHashPower := 0
    referralHashBonus := 0, gbtcBalance := 0, unclaimedBalance := 0
    totalReferralEarnings := 0, isAdmin := false, isFrozen := false
    isBanned := false, hasStartedMining := false, accessKey := hashedKey }

inductive PurchaseResult where
  | belowMinimum
  | insufficientBalance
  | purchased (u : GoUser)
deriving DecidableEq

/-- Handler `handlePurchasePower` (src/go-backend/main.go lines 543-584, identical in
src/go-backend/backup/mining.go lines 37-78): reject an amount below 1,
reject an amount exceeding the USDT balance, otherwise debit USDT by the
amount and credit hash power by the same amount.  `amount` is the rational
value of the decoded request amount; the same value is used for the check and
for both updates, as the Go code uses `decimal.NewFromFloat(req.Amount)`
consistently.  (The float64 decode step itself is treated separately, in the
C4 theorems.) -/
def handlePurchasePower (user : GoUser) (amount : ℚ) : PurchaseResult :=
  if amount < 1 then .belowMinimum
  else if user.usdtBalance < amount then .insufficientBalance
  else .purchased { user with usdtBalance := user.usdtBalance - amount
                              hashPower := user.hashPower + amount }

inductive MiningResult where
  | noHashPower
  | started (u : GoUser)
deriving DecidableEq

/-- Handler `handleStartMining` (src/go-backend/main.go lines 587-609): reject when
hash power is ≤ 0, otherwise set the has-started-mining flag. -/
def handleStartMining (user : GoUser) : MiningResult :=
  if user.hashPower ≤ 0 then .noHashPower
  else .started { user with hasStartedMining := true }

inductive ClaimResult where
  | noRewards
  | claimed (u : GoUser)
deriving DecidableEq

/-- Handler `handleClaimRewards` (src/go-backend/main.go lines 612-637): reject when
the unclaimed balance is ≤ 0, otherwise credit GBTC with the unclaimed
balance and set the unclaimed balance to the exact zero literal. -/
def handleClaimRewards (user : GoUser) : ClaimResult :=
  if user.unclaimedBalance ≤ 0 then .noRewards
  else .claimed { user with gbtcBalance := user.gbtcBalance + user.unclaimedBalance
                            unclaimedBalance := 0 }

/-- The user row after a purchase-power request: updated on success, untouched
on either error (the error paths perform no UPDATE). -/
def purchasePowerState (user : GoUser) (amount : ℚ) : GoUser :=
  match handlePurchasePower user amount with
  | .purchased u' => u'
  | _ => user

/-- The user row after a start-mining request. -/
def startMiningState (user : GoUser) : GoUser :=
  match handleStartMining user with
  | .started u' => u'
  | _ => user

/-- The user row after a claim-rewards request. -/
def claimRewardsState (user : GoUser) : GoUser :=
  match handleClaimRewards user with
  | .claimed u' => u'
  | _ => user

/-- All eight balance columns are nonnegative. -/
def balancesNonneg (u : GoUser) : Prop :=
  0 ≤ u.usdtBalance ∧ 0 ≤ u.btcBalance ∧ 0 ≤ u.hashPower ∧ 0 ≤ u.baseHashPower ∧
    0 ≤ u.referralHashBonus ∧ 0 ≤ u.gbtcBalance ∧ 0 ≤ u.unclaimedBalance ∧
    0 ≤ u.totalReferralEarnings

/-! ### The float64 decode of the purchase amount (claim C4)

`handlePurchasePower` declares the request body as `Amount float64`
(src/go-backend/main.go line 551), so the JSON decimal sent by the client is
first rounded to an IEEE-754 binary64 before `decimal.NewFromFloat` turns it
back into a decimal.  For a real value in the binade [1, 2) the representable
binary64 values are exactly the multiples of 2⁻⁵², and decoding rounds to the
nearest one (the failing input below is not a tie, so the tie-breaking rule
is irrelevant). -/

/-- Round a rational in [1, 2) to the nearest IEEE-754 binary64, i.e. to the
nearest multiple of 2⁻⁵². -/
def f64RoundUnit (q : ℚ) : ℚ :=
  (round (q * 2 ^ 52) : ℤ) / 2 ^ 52

/-! ### DeviceGate (src/go-backend/backup/database.go lines 188-341) -/

structure DeviceCheckRequest where
  serverDeviceID : String
  userAgent : String
  screenResolution : String
  timezone : String
  language : String
  canvasFingerprint : String
  webglFingerprint : String
  audioFingerprint : String
deriving DecidableEq

/-- The device_fingerprints row (timestamp columns omitted). -/
structure DeviceFingerprint where
  id : String
  serverDeviceID : String
  lastIP : String
  registrations : Int
  maxRegistrations : Int
  blocked : Bool
  riskScore : Int
  userAgent : String
  screenResolution : String
  timezone : String
  language : String
  canvasFingerprint : String
  webglFingerprint : String
  audioFingerprint : String
deriving DecidableEq

structure DeviceCheckResponse where
  deviceID : String
  canRegister : Bool
  registrations : Int
  blocked : Bool
  riskScore : Int
deriving DecidableEq

/-- Function `calculateRiskScore` (src/go-backend/backup/database.go lines 323-341):
additive penalties for missing signals; the audio fingerprint is not
consulted. -/
def calculateRiskScore (f : DeviceCheckRequest) : Int :=
  (if f.userAgent = "" then 10 else 0) + (if f.screenResolution = "" then 5 else 0) +
    (if f.canvasFingerprint = "" then 15 else 0) + (if f.webglFingerprint = "" then 10 else 0)

/-- Function `upsertDevice` (src/go-backend/backup/database.go lines 188-262).
`existing` is the row selected for the external device id (`none` when the
SELECT returns no rows); `newID` stands for the id generated by the INSERT's
RETURNING clause.  Returns the stored row and the DeviceCheckResponse.  On an
unseen id a fresh row is created with registrations 0, max-registrations 2,
blocked false and the computed risk score; on a seen id only last IP, the
raw signals and the recomputed risk score are written.  The response's
canRegister is `!blocked && registrations < maxRegistrations` over the row's
values. -/
def upsertDevice (existing : Option DeviceFingerprint) (newID serverDeviceID clientIP : String)
    (f : DeviceCheckRequest) : DeviceFingerprint × DeviceCheckResponse :=
  let device : DeviceFingerprint :=
    match existing with
    | none =>
      { id := newID, serverDeviceID := serverDeviceID, lastIP := clientIP
        registrations := 0, maxRegistrations := 2, blocked := false
        riskScore := calculateRiskScore f
        userAgent := f.userAgent, screenResolution := f.screenResolution
        timezone := f.timezone, language := f.language
        canvasFingerprint := f.canvasFingerprint, webglFingerprint := f.webglFingerprint
        audioFingerprint := f.audioFingerprint }
    | some dev =>
      { dev with lastIP := clientIP, riskScore := calculateRiskScore f
                 userAgent := f.userAgent, screenResolution := f.screenResolution
                 timezone := f.timezone, language := f.language
                 canvasFingerprint := f.canvasFingerprint
                 webglFingerprint := f.webglFingerprint
                 audioFingerprint := f.audioFingerprint }
  (device,
    { deviceID := device.id
      canRegister := !device.blocked && decide (device.registrations < device.maxRegistrations)
      registrations := device.registrations
      blocked := device.blocked
      riskScore := device.riskScore })

/-- Function `linkUserToDevice` (src/go-backend/backup/database.go lines 265-281):
unconditionally increment the device's registration count by one. -/
def linkUserToDevice (device : DeviceFingerprint) : DeviceFingerprint :=
  { device with registrations := device.registrations + 1 }

/-! ### SessionAuthority (src/go-backend/main.go lines 299-331) -/

inductive AuthResult where
  | authRequired
  | invalidSession
  | bannedError
  | frozenError
  | ok (u : GoUser)
deriving DecidableEq

/-- Middleware `authMiddleware` (src/go-backend/main.go lines 299-331, identical in
src/unnamed/part_000 lines 11-43): extract the bound user id from the session
cookie, perform a fresh `getUserByID` read of the full user row against the
store snapshot current at this request (`getUserByID` — nothing is cached
between requests), and gate: missing user ⇒ invalid-session 401, banned ⇒
403 banned, frozen ⇒ 403 frozen, in that order. -/
def authMiddleware (sessionUserID : Option String) (getUserByID : String → Option GoUser) :
    AuthResult :=
  match sessionUserID with
  | none => .authRequired
  | some uid =>
    if uid = "" then .authRequired
    else
      match getUserByID uid with
      | none => .invalidSession
      | some user =>
        if user.isBanned then .bannedError
        else if user.isFrozen then .frozenError
        else .ok user

inductive LoginResult where
  | invalidCredentials
  | bannedError
  | frozenError
  | success (u : GoUser)
deriving DecidableEq

/-- Handler `handleLogin` (src/go-backend/main.go lines 413-447, identical in
src/unnamed/part_000 lines 125-159): look the user up by username (missing ⇒
401 invalid credentials), verify the access key (wrong ⇒ 401 invalid
credentials), and only then gate on banned (403) and frozen (403).  The
malformed-body and store-failure branches are outside the embedded state
logic. -/
def handleLogin (getUserByUsername : String → Option GoUser)
    (kdf : List Nat → List Nat → List Nat) (username : String) (accessKey : List Nat) :
    LoginResult :=
  match getUserByUsername username with
  | none => .invalidCredentials
  | some user =>
    if verifyAccessKey kdf user.accessKey accessKey = false then .invalidCredentials
    else if user.isBanned then .bannedError
    else if user.isFrozen then .frozenError
    else .success user

/-! ### Concrete fixtures used by the witness theorems -/

/-- A complete, well-formed device-check payload used as a witness input. -/
def demoSignals : DeviceCheckRequest :=
  { serverDeviceID := "dev-1", userAgent := "ua", screenResolution := "1920x1080"
    timezone := "UTC", language := "en", canvasFingerprint := "c"
    webglFingerprint := "w", audioFingerprint := "a" }

/-- A freshly created user with three units of pending rewards. -/
def demoRewardUser : GoUser :=
  { createUser [] with unclaimedBalance := 3 }

/-- A freshly created user holding two USDT. -/
def demoFundedUser : GoUser :=
  { createUser [] with usdtBalance := 2 }

/-- A banned user whose stored credential is malformed (empty), so that no
plain key verifies against it. -/
def demoBannedUser : GoUser :=
  { createUser [] with isBanned := true }

/-! ## Theorems -/

/-! ### Ledger -/

/-- Claim C1: for every user state and requested amount, PurchasePower
succeeds exactly when the amount is ≥ 1 and ≤ the current USDT balance; on
success it debits USDT by the amount and credits hash power by the same
amount (1:1); it fails with the below-minimum error when the amount is < 1
and with the insufficient-balance error when the amount exceeds the USDT
balance. -/
theorem purchase_power_correct (user : GoUser) (amount : ℚ) :
    ((∃ u', handlePurchasePower user amount = .purchased u') ↔
      1 ≤ amount ∧ amount ≤ user.usdtBalance) ∧
    (∀ u', handlePurchasePower user amount = .purchased u' →
      u'.usdtBalance = user.usdtBalance - amount ∧ u'.hashPower = user.hashPower + amount) ∧
    (amount < 1 → handlePurchasePower user amount = .belowMinimum) ∧
    (1 ≤ amount → user.usdtBalance < amount →
      handlePurchasePower user amount = .insufficientBalance) := by
  refine ⟨⟨?_, ?_⟩, ?_, ?_, ?_⟩
  · rintro ⟨u', hu⟩
    unfold handlePurchasePower at hu
    split_ifs at hu with h1 h2
    exact ⟨by linarith, by linarith⟩
  · rintro ⟨h1, h2⟩
    exact ⟨_, by unfold handlePurchasePower; rw [if_neg (by linarith), if_neg (by linarith)]⟩
  · intro u' hu
    unfold handlePurchasePower at hu
    split_ifs at hu with h1 h2
    injection hu with hu
    subst hu
    exact ⟨rfl, rfl⟩
  · intro h1
    unfold handlePurchasePower
    rw [if_pos h1]
  · intro h1 h2
    unfold handlePurchasePower
    rw [if_neg (by linarith), if_pos h2]

/-- Witness for C1: a half-unit request is rejected as below minimum. -/
theorem purchase_power_correct_witness :
    handlePurchasePower (createUser []) (1 / 2) = .belowMinimum :=
  (purchase_power_correct (createUser []) (1 / 2)).2.2.1 (by norm_num)

/-- Claim C2: ClaimRewards on a positive unclaimed balance credits GBTC with
the unclaimed balance and zeroes it; on an unclaimed balance ≤ 0 it fails
with the no-rewards error.  Two successive calls credit GBTC exactly once,
leave the unclaimed balance at exact zero, and the second call fails with
the no-rewards error. -/
theorem claim_rewards_exactly_once (user : GoUser) :
    (user.unclaimedBalance ≤ 0 → handleClaimRewards user = .noRewards) ∧
    (0 < user.unclaimedBalance →
      ∃ u', handleClaimRewards user = .claimed u' ∧
        u'.gbtcBalance = user.gbtcBalance + user.unclaimedBalance ∧
        u'.unclaimedBalance = 0 ∧
        handleClaimRewards u' = .noRewards ∧
        u'.gbtcBalance - user.gbtcBalance = user.unclaimedBalance) := by
  constructor
  · intro h
    unfold handleClaimRewards
    rw [if_pos h]
  · intro h
    refine ⟨_, by unfold handleClaimRewards; rw [if_neg (by linarith)], rfl, rfl, ?_, by ring⟩
    unfold handleClaimRewards
    rw [if_pos le_rfl]

/-- Witness for C2: claiming three pending units credits them once and a
second claim fails. -/
theorem claim_rewards_exactly_once_witness :
    ∃ u', handleClaimRewards demoRewardUser = .claimed u' ∧
      u'.gbtcBalance = demoRewardUser.gbtcBalance + demoRewardUser.unclaimedBalance ∧
      u'.unclaimedBalance = 0 ∧
      handleClaimRewards u' = .noRewards ∧
      u'.gbtcBalance - demoRewardUser.gbtcBalance = demoRewardUser.unclaimedBalance :=
  (claim_rewards_exactly_once demoRewardUser).2 (by norm_num [demoRewardUser, createUser])

/-- Claim C3: balances start at zero at user creation, and each ledger
operation (PurchasePower, StartMining, ClaimRewards) maps a state with all
balances ≥ 0 to a state with all balances ≥ 0, whether the operation
succeeds or fails (the error paths perform no write). -/
theorem balances_stay_nonneg (user : GoUser) (amount : ℚ) (key : List Nat) :
    balancesNonneg (createUser key) ∧
    (balancesNonneg user → balancesNonneg (purchasePowerState user amount)) ∧
    (balancesNonneg user → balancesNonneg (startMiningState user)) ∧
    (balancesNonneg user → balancesNonneg (claimRewardsState user)) := by
  refine ⟨?_, ?_, ?_, ?_⟩
  · simp [createUser, balancesNonneg]
  · intro h
    obtain ⟨h1, h2, h3, h4, h5, h6, h7, h8⟩ := h
    unfold purchasePowerState handlePurchasePower
    split_ifs with hb hc
    · exact ⟨h1, h2, h3, h4, h5, h6, h7, h8⟩
    · exact ⟨h1, h2, h3, h4, h5, h6, h7, h8⟩
    · exact ⟨by simpa using by linarith, h2, by simpa using by linarith, h4, h5, h6, h7, h8⟩
  · intro h
    obtain ⟨h1, h2, h3, h4, h5, h6, h7, h8⟩ := h
    unfold startMiningState handleStartMining
    split_ifs <;> exact ⟨h1, h2, h3, h4, h5, h6, h7, h8⟩
  · intro h
    obtain ⟨h1, h2, h3, h4, h5, h6, h7, h8⟩ := h
    unfold claimRewardsState handleClaimRewards
    split_ifs with hb
    · exact ⟨h1, h2, h3, h4, h5, h6, h7, h8⟩
    · exact ⟨h1, h2, h3, h4, h5, by simpa using by linarith, by simp, h8⟩

/-- Witness for C3: the nonnegativity invariant survives a concrete purchase
on a fresh zero-balance account (the purchase fails, leaving the row as is). -/
theorem balances_stay_nonneg_witness :
    balancesNonneg (purchasePowerState (createUser []) 1) :=
  (balances_stay_nonneg (createUser []) 1 []).2.1 (balances_stay_nonneg (createUser []) 1 []).1

/-- Claim C4 (code bug): the spec requires the purchase amount to be an
exact decimal, never a binary float, but `handlePurchasePower` declares
`Amount float64`, so the decoded amount is first rounded to a binary64.
The client-sent exact decimal 1.00000000000000001 is rounded to 1 before the
decimal arithmetic: the float64 pipeline debits exactly 1 from a 2-USDT
balance where exact-decimal handling would debit 1.00000000000000001,
leaving 0.99999999999999999. -/
theorem purchase_amount_rounded_through_float64 :
    f64RoundUnit (1 + 1 / 10 ^ 17) ≠ (1 + 1 / 10 ^ 17 : ℚ) ∧
    (purchasePowerState demoFundedUser (f64RoundUnit (1 + 1 / 10 ^ 17))).usdtBalance = 1 ∧
    (purchasePowerState demoFundedUser (1 + 1 / 10 ^ 17)).usdtBalance = 1 - 1 / 10 ^ 17 ∧
    (1 : ℚ) ≠ 1 - 1 / 10 ^ 17 := by
  have hround : f64RoundUnit (1 + 1 / 10 ^ 17) = 1 := by
    unfold f64RoundUnit
    have : round ((1 + 1 / 10 ^ 17 : ℚ) * 2 ^ 52) = 2 ^ 52 := by
      rw [round_eq]
      apply Int.floor_eq_iff.mpr
      constructor <;> push_cast <;> norm_num
    rw [this]
    norm_num
  refine ⟨by rw [hround]; norm_num, ?_, ?_, by norm_num⟩
  · rw [hround]
    unfold purchasePowerState handlePurchasePower demoFundedUser createUser
    norm_num
  · unfold purchasePowerState handlePurchasePower demoFundedUser createUser
    rw [if_neg (by norm_num), if_neg (by norm_num)]
    norm_num

/-! ### DeviceGate -/

/-- Claim C6: the response's canRegister is exactly
`!blocked && registrations < maxRegistrations` over the stored row (so a
blocked or at-cap device can never register, whatever its signals), and a
link performed only after a check that returned canRegister = true
increments the count by exactly one, keeping registrations ≤
maxRegistrations. -/
theorem device_cap_respected (existing : Option DeviceFingerprint)
    (newID sid ip : String) (f : DeviceCheckRequest) (d : DeviceFingerprint)
    (resp : DeviceCheckResponse) (h : upsertDevice existing newID sid ip f = (d, resp)) :
    (resp.canRegister = true ↔ d.blocked = false ∧ d.registrations < d.maxRegistrations) ∧
    (d.blocked = true ∨ d.maxRegistrations ≤ d.registrations → resp.canRegister = false) ∧
    (resp.canRegister = true →
      (linkUserToDevice d).registrations = d.registrations + 1 ∧
      (linkUserToDevice d).maxRegistrations = d.maxRegistrations ∧
      (linkUserToDevice d).registrations ≤ (linkUserToDevice d).maxRegistrations) := by
  have hcan : resp.canRegister = (!d.blocked && decide (d.registrations < d.maxRegistrations)) := by
    cases existing <;> (cases h; rfl)
  have hiff : resp.canRegister = true ↔
      d.blocked = false ∧ d.registrations < d.maxRegistrations := by
    rw [hcan]
    simp [Bool.and_eq_true, Bool.not_eq_true']
  refine ⟨hiff, ?_, ?_⟩
  · intro hor
    rw [hcan]
    rcases hor with hb | hle
    · simp [hb]
    · simp [Bool.and_eq_false_iff]
      intro _
      omega
  · intro hc
    obtain ⟨-, hlt⟩ := hiff.mp hc
    exact ⟨rfl, rfl, by simp [linkUserToDevice]; omega⟩

/-- Witness for C6: a fresh device record passes the check, and the
subsequent link increments the count to one, within the cap of two. -/
theorem device_cap_respected_witness :
    (linkUserToDevice (upsertDevice none "id-1" "dev-1" "ip" demoSignals).1).registrations =
      (upsertDevice none "id-1" "dev-1" "ip" demoSignals).1.registrations + 1 ∧
    (linkUserToDevice (upsertDevice none "id-1" "dev-1" "ip" demoSignals).1).maxRegistrations =
      (upsertDevice none "id-1" "dev-1" "ip" demoSignals).1.maxRegistrations ∧
    (linkUserToDevice (upsertDevice none "id-1" "dev-1" "ip" demoSignals).1).registrations ≤
      (linkUserToDevice (upsertDevice none "id-1" "dev-1" "ip" demoSignals).1).maxRegistrations :=
  (device_cap_respected none "id-1" "dev-1" "ip" demoSignals _ _ rfl).2.2 (by decide)

/-- Claim C7: a check on an unseen id creates one record with
registrations 0, max-registrations 2, blocked false and risk score
Score(signals); a check on a seen id rewrites only last IP, the raw signals
and the recomputed risk score, leaving registrations, blocked and
max-registrations (and the ids) untouched. -/
theorem device_check_frame (dev : DeviceFingerprint) (newID sid ip : String)
    (f : DeviceCheckRequest) :
    ((upsertDevice none newID sid ip f).1.registrations = 0 ∧
      (upsertDevice none newID sid ip f).1.maxRegistrations = 2 ∧
      (upsertDevice none newID sid ip f).1.blocked = false ∧
      (upsertDevice none newID sid ip f).1.riskScore = calculateRiskScore f ∧
      (upsertDevice none newID sid ip f).1.id = newID ∧
      (upsertDevice none newID sid ip f).1.lastIP = ip) ∧
    ((upsertDevice (some dev) newID sid ip f).1.registrations = dev.registrations ∧
      (upsertDevice (some dev) newID sid ip f).1.blocked = dev.blocked ∧
      (upsertDevice (some dev) newID sid ip f).1.maxRegistrations = dev.maxRegistrations ∧
      (upsertDevice (some dev) newID sid ip f).1.id = dev.id ∧
      (upsertDevice (some dev) newID sid ip f).1.serverDeviceID = dev.serverDeviceID ∧
      (upsertDevice (some dev) newID sid ip f).1.lastIP = ip ∧
      (upsertDevice (some dev) newID sid ip f).1.riskScore = calculateRiskScore f ∧
      (upsertDevice (some dev) newID sid ip f).1.userAgent = f.userAgent ∧
      (upsertDevice (some dev) newID sid ip f).1.screenResolution = f.screenResolution ∧
      (upsertDevice (some dev) newID sid ip f).1.timezone = f.timezone ∧
      (upsertDevice (some dev) newID sid ip f).1.language = f.language ∧
      (upsertDevice (some dev) newID sid ip f).1.canvasFingerprint = f.canvasFingerprint ∧
      (upsertDevice (some dev) newID sid ip f).1.webglFingerprint = f.webglFingerprint ∧
      (upsertDevice (some dev) newID sid ip f).1.audioFingerprint = f.audioFingerprint) :=
  ⟨⟨rfl, rfl, rfl, rfl, rfl, rfl⟩,
    rfl, rfl, rfl, rfl, rfl, rfl, rfl, rfl, rfl, rfl, rfl, rfl, rfl, rfl⟩

/-! ### SessionAuthority -/

/-- Claim C8: session validation reads the user row fresh from the store
snapshot current at each request and fails with a distinct error for a
missing, banned, or frozen user, checked in that priority order (a user both
banned and frozen yields the banned error); hence a session whose user is
banned after token issue fails on the very next request. -/
theorem session_validation_fresh (uid : String) (db db2 : String → Option GoUser)
    (u u2 : GoUser) (huid : uid ≠ "") :
    (db uid = none → authMiddleware (some uid) db = .invalidSession) ∧
    (db uid = some u → u.isBanned = true → authMiddleware (some uid) db = .bannedError) ∧
    (db uid = some u → u.isBanned = false → u.isFrozen = true →
      authMiddleware (some uid) db = .frozenError) ∧
    (db uid = some u → u.isBanned = false → u.isFrozen = false →
      authMiddleware (some uid) db = .ok u) ∧
    (AuthResult.invalidSession ≠ AuthResult.bannedError ∧
      AuthResult.invalidSession ≠ AuthResult.frozenError ∧
      AuthResult.bannedError ≠ AuthResult.frozenError) ∧
    (db uid = some u → u.isBanned = false → u.isFrozen = false →
      db2 uid = some u2 → u2.isBanned = true →
      authMiddleware (some uid) db = .ok u ∧
      authMiddleware (some uid) db2 = .bannedError) := by
  refine ⟨?_, ?_, ?_, ?_, ⟨by simp, by simp, by simp⟩, ?_⟩
  · intro hdb
    simp [authMiddleware, huid, hdb]
  · intro hdb hban
    simp [authMiddleware, huid, hdb, hban]
  · intro hdb hban hfro
    simp [authMiddleware, huid, hdb, hban, hfro]
  · intro hdb hban hfro
    simp [authMiddleware, huid, hdb, hban, hfro]
  · intro hdb hban hfro hdb2 hban2
    constructor
    · simp [authMiddleware, huid, hdb, hban, hfro]
    · simp [authMiddleware, huid, hdb2, hban2]

/-- Witness for C8: against a snapshot in which the user row has been
banned, the same unexpired token is rejected with the banned error. -/
theorem session_validation_fresh_witness :
    authMiddleware (some "alice") (fun _ => some demoBannedUser) = .bannedError :=
  ((session_validation_fresh "alice" (fun _ => some (createUser []))
        (fun _ => some demoBannedUser) (createUser []) demoBannedUser
        (by simp)).2.2.2.2.2 rfl rfl rfl rfl rfl).2

/-- Claim C10: in Login, credential verification is evaluated before the
ban/freeze gates: with the user row present, a wrong access key yields the
401 invalid-credentials error whatever the ban/freeze flags, and the 403
banned or frozen error is only reachable when the presented key verifies. -/
theorem login_checks_credentials_first (lookup : String → Option GoUser)
    (kdf : List Nat → List Nat → List Nat) (username : String) (accessKey : List Nat)
    (user : GoUser) (hlook : lookup username = some user) :
    (verifyAccessKey kdf user.accessKey accessKey = false →
      handleLogin lookup kdf username accessKey = .invalidCredentials) ∧
    (handleLogin lookup kdf username accessKey = .bannedError →
      verifyAccessKey kdf user.accessKey accessKey = true ∧ user.isBanned = true) ∧
    (handleLogin lookup kdf username accessKey = .frozenError →
      verifyAccessKey kdf user.accessKey accessKey = true ∧ user.isBanned = false ∧
        user.isFrozen = true) := by
  have hlogin : handleLogin lookup kdf username accessKey =
      (if verifyAccessKey kdf user.accessKey accessKey = false then .invalidCredentials
       else if user.isBanned then .bannedError
       else if user.isFrozen then .frozenError
       else .success user) := by
    unfold handleLogin
    rw [hlook]
  refine ⟨?_, ?_, ?_⟩
  · intro hv
    rw [hlogin, if_pos hv]
  · intro hres
    rw [hlogin] at hres
    by_cases hv : verifyAccessKey kdf user.accessKey accessKey = false
    · rw [if_pos hv] at hres
      exact absurd hres (by simp)
    · refine ⟨by simpa using hv, ?_⟩
      rw [if_neg hv] at hres
      by_cases hb : user.isBanned = true
      · exact hb
      · rw [if_neg hb] at hres
        by_cases hf : user.isFrozen = true
        · rw [if_pos hf] at hres
          exact absurd hres (by simp)
        · rw [if_neg hf] at hres
          exact absurd hres (by simp)
  · intro hres
    rw [hlogin] at hres
    by_cases hv : verifyAccessKey kdf user.accessKey accessKey = false
    · rw [if_pos hv] at hres
      exact absurd hres (by simp)
    · refine ⟨by simpa using hv, ?_, ?_⟩
      · rw [if_neg hv] at hres
        by_cases hb : user.isBanned = true
        · rw [if_pos hb] at hres
          exact absurd hres (by simp)
        · simpa using hb
      · rw [if_neg hv] at hres
        by_cases hb : user.isBanned = true
        · rw [if_pos hb] at hres
          exact absurd hres (by simp)
        · rw [if_neg hb] at hres
          by_cases hf : user.isFrozen = true
          · exact hf
          · rw [if_neg hf] at hres
            exact absurd hres (by simp)

/-- Witness for C10: a banned user presenting a key that does not verify
gets invalid-credentials (401), not the banned (403) response. -/
theorem login_checks_credentials_first_witness :
    handleLogin (fun _ => some demoBannedUser) scryptKey "alice" [1, 2, 3, 4, 5, 6] =
      .invalidCredentials :=
  (login_checks_credentials_first (fun _ => some demoBannedUser) scryptKey "alice"
      [1, 2, 3, 4, 5, 6] demoBannedUser rfl).1 (by decide)

/-! ### Base64, split and comparison lemmas -/

theorem b64Index_b64Char : ∀ n < 64, b64Index (b64Char n) = some n := by decide

theorem b64Char_ne_colon (n : Nat) : b64Char n ≠ 58 := by
  unfold b64Char
  split_ifs <;> omega

theorem b64Char_ne_pad (n : Nat) : b64Char n ≠ 61 := by
  unfold b64Char
  split_ifs <;> omega

theorem encodeB64_no_colon : ∀ bs : List Nat, 58 ∉ encodeB64 bs
  | [] => by simp [encodeB64]
  | [b0] => by
    intro h
    simp [encodeB64] at h
    rcases h with h | h <;> exact b64Char_ne_colon _ h.symm
  | [b0, b1] => by
    intro h
    simp [encodeB64] at h
    rcases h with h | h | h <;> exact b64Char_ne_colon _ h.symm
  | b0 :: b1 :: b2 :: rest => by
    intro h
    rw [show encodeB64 (b0 :: b1 :: b2 :: rest) =
        b64Char (b0 / 4) :: b64Char (b0 % 4 * 16 + b1 / 16) ::
          b64Char (b1 % 16 * 4 + b2 / 64) :: b64Char (b2 % 64) :: encodeB64 rest from rfl] at h
    simp at h
    rcases h with h | h | h | h | h
    · exact b64Char_ne_colon _ h.symm
    · exact b64Char_ne_colon _ h.symm
    · exact b64Char_ne_colon _ h.symm
    · exact b64Char_ne_colon _ h.symm
    · exact encodeB64_no_colon rest h

theorem encodeB64_eq_nil_iff (bs : List Nat) : encodeB64 bs = [] ↔ bs = [] := by
  cases bs with
  | nil => simp [encodeB64]
  | cons b rest =>
    cases rest with
    | nil => simp [encodeB64]
    | cons b1 rest1 => cases rest1 <;> simp [encodeB64]

theorem decodeB64_encodeB64 : ∀ bs : List Nat, (∀ b ∈ bs, b < 256) →
    decodeB64 (encodeB64 bs) = some bs
  | [], _ => rfl
  | [b0], h => by
    have hb0 : b0 < 256 := h b0 (by simp)
    show decodeB64 [b64Char (b0 / 4), b64Char (b0 % 4 * 16), 61, 61] = some [b0]
    unfold decodeB64
    simp only [b64Index_b64Char (b0 / 4) (by omega), b64Index_b64Char (b0 % 4 * 16) (by omega)]
    simp
    omega
  | [b0, b1], h => by
    have hb0 : b0 < 256 := h b0 (by simp)
    have hb1 : b1 < 256 := h b1 (by simp)
    show decodeB64
        [b64Char (b0 / 4), b64Char (b0 % 4 * 16 + b1 / 16), b64Char (b1 % 16 * 4), 61] =
      some [b0, b1]
    unfold decodeB64
    simp only [b64Index_b64Char (b0 / 4) (by omega),
      b64Index_b64Char (b0 % 4 * 16 + b1 / 16) (by omega),
      b64Index_b64Char (b1 % 16 * 4) (by omega),
      if_neg (b64Char_ne_pad (b1 % 16 * 4))]
    simp
    omega
  | b0 :: b1 :: b2 :: rest, h => by
    have hb0 : b0 < 256 := h b0 (by simp)
    have hb1 : b1 < 256 := h b1 (by simp)
    have hb2 : b2 < 256 := h b2 (by simp)
    have ih : decodeB64 (encodeB64 rest) = some rest :=
      decodeB64_encodeB64 rest (fun b hb => h b (by simp [hb]))
    show decodeB64
        (b64Char (b0 / 4) :: b64Char (b0 % 4 * 16 + b1 / 16) ::
          b64Char (b1 % 16 * 4 + b2 / 64) :: b64Char (b2 % 64) :: encodeB64 rest) =
      some (b0 :: b1 :: b2 :: rest)
    unfold decodeB64
    simp only [b64Index_b64Char (b0 / 4) (by omega),
      b64Index_b64Char (b0 % 4 * 16 + b1 / 16) (by omega),
      b64Index_b64Char (b1 % 16 * 4 + b2 / 64) (by omega),
      b64Index_b64Char (b2 % 64) (by omega),
      if_neg (b64Char_ne_pad (b1 % 16 * 4 + b2 / 64)),
      if_neg (b64Char_ne_pad (b2 % 64)), ih]
    simp
    omega

theorem splitHashedKeyAux_no_colon : ∀ l acc : List Nat, 58 ∉ l →
    splitHashedKeyAux l acc = if acc.reverse ++ l = [] then [] else [acc.reverse ++ l]
  | [], acc, _ => by
    by_cases ha : acc = []
    · subst ha
      simp [splitHashedKeyAux]
    · rw [show splitHashedKeyAux [] acc = [acc.reverse] from by simp [splitHashedKeyAux, ha]]
      rw [if_neg (by simp [ha])]
      simp
  | c :: rest, acc, h => by
    have hc : ¬c = 58 := fun hc => h (by simp [hc])
    have hrest : 58 ∉ rest := fun hr => h (by simp [hr])
    rw [show splitHashedKeyAux (c :: rest) acc = splitHashedKeyAux rest (c :: acc) from by
      simp [splitHashedKeyAux, hc]]
    rw [splitHashedKeyAux_no_colon rest (c :: acc) hrest]
    have h1 : (c :: acc).reverse ++ rest = acc.reverse ++ (c :: rest) := by simp
    rw [h1]

theorem splitHashedKeyAux_append : ∀ l1 l2 acc : List Nat, 58 ∉ l1 →
    splitHashedKeyAux (l1 ++ 58 :: l2) acc = (acc.reverse ++ l1) :: splitHashedKeyAux l2 []
  | [], l2, acc, _ => by
    rw [show ([] : List Nat) ++ 58 :: l2 = 58 :: l2 from rfl]
    rw [show splitHashedKeyAux (58 :: l2) acc = acc.reverse :: splitHashedKeyAux l2 [] from by
      simp [splitHashedKeyAux]]
    simp
  | c :: l1, l2, acc, h => by
    have hc : ¬c = 58 := fun hc => h (by simp [hc])
    have h1 : 58 ∉ l1 := fun hr => h (by simp [hr])
    rw [show (c :: l1) ++ 58 :: l2 = c :: (l1 ++ 58 :: l2) from rfl]
    rw [show splitHashedKeyAux (c :: (l1 ++ 58 :: l2)) acc =
        splitHashedKeyAux (l1 ++ 58 :: l2) (c :: acc) from by simp [splitHashedKeyAux, hc]]
    rw [splitHashedKeyAux_append l1 l2 (c :: acc) h1]
    simp

theorem splitHashedKey_two (l1 l2 : List Nat) (h1 : 58 ∉ l1) (h2 : 58 ∉ l2) (hne : l2 ≠ []) :
    splitHashedKey (l1 ++ 58 :: l2) = [l1, l2] := by
  unfold splitHashedKey
  rw [splitHashedKeyAux_append l1 l2 [] h1]
  rw [splitHashedKeyAux_no_colon l2 [] h2]
  simp [hne]

theorem nat_lor_eq_zero (a b : Nat) : Nat.lor a b = 0 ↔ a = 0 ∧ b = 0 := by
  have hab : a ||| b = Nat.lor a b := rfl
  rw [← hab]
  constructor
  · intro h
    constructor
    · apply Nat.eq_of_testBit_eq
      intro i
      have h1 : (a ||| b).testBit i = false := by rw [h]; simp
      rw [Nat.testBit_or] at h1
      simp at h1 ⊢
      exact h1.1
    · apply Nat.eq_of_testBit_eq
      intro i
      have h1 : (a ||| b).testBit i = false := by rw [h]; simp
      rw [Nat.testBit_or] at h1
      simp at h1 ⊢
      exact h1.2
  · rintro ⟨rfl, rfl⟩
    rfl

theorem lor_foldl_eq_zero : ∀ (l : List Nat) (acc : Nat),
    l.foldl Nat.lor acc = 0 ↔ acc = 0 ∧ ∀ x ∈ l, x = 0
  | [], acc => by simp
  | x :: l, acc => by
    rw [show (x :: l).foldl Nat.lor acc = l.foldl Nat.lor (Nat.lor acc x) from rfl]
    rw [lor_foldl_eq_zero l (Nat.lor acc x), nat_lor_eq_zero, List.forall_mem_cons]
    tauto

theorem zipWith_xor_all_zero : ∀ a b : List Nat, a.length = b.length →
    ((∀ x ∈ List.zipWith Nat.xor a b, x = 0) ↔ a = b)
  | [], [], _ => by simp
  | [], y :: b, h => by simp at h
  | x :: a, [], h => by simp at h
  | x :: a, y :: b, h => by
    have hlen : a.length = b.length := by simpa using h
    rw [show List.zipWith Nat.xor (x :: a) (y :: b) =
        Nat.xor x y :: List.zipWith Nat.xor a b from rfl]
    rw [List.forall_mem_cons, zipWith_xor_all_zero a b hlen]
    constructor
    · rintro ⟨h1, rfl⟩
      rw [Nat.xor_eq_zero.mp h1]
    · intro he
      injection he with he1 he2
      subst he1
      subst he2
      exact ⟨Nat.xor_self x, rfl⟩

theorem compareHashes_eq_true (a b : List Nat) : compareHashes a b = true ↔ a = b := by
  unfold compareHashes
  by_cases hlen : a.length = b.length
  · rw [if_neg (not_not_intro hlen)]
    rw [beq_iff_eq, lor_foldl_eq_zero]
    have := zipWith_xor_all_zero a b hlen
    tauto
  · rw [if_pos hlen]
    simp only [Bool.false_eq_true, false_iff]
    intro he
    exact hlen (by rw [he])

/-! ### Digit lemmas and the key-derivation pigeonhole -/

theorem toDigits_length : ∀ k n : Nat, (toDigits k n).length = k
  | 0, _ => rfl
  | k + 1, n => by simp [toDigits, toDigits_length k]

theorem toDigits_lt : ∀ k n : Nat, ∀ b ∈ toDigits k n, b < 256
  | 0, _ => by simp [toDigits]
  | k + 1, n => by
    rw [show toDigits (k + 1) n = n % 256 :: toDigits k (n / 256) from rfl]
    rw [List.forall_mem_cons]
    exact ⟨by omega, toDigits_lt k (n / 256)⟩

theorem fromDigits_toDigits : ∀ k n : Nat, fromDigits (toDigits k n) = n % 256 ^ k
  | 0, n => by simp [toDigits, fromDigits, Nat.mod_one]
  | k + 1, n => by
    rw [show toDigits (k + 1) n = n % 256 :: toDigits k (n / 256) from rfl]
    rw [show fromDigits (n % 256 :: toDigits k (n / 256)) =
        n % 256 + 256 * fromDigits (toDigits k (n / 256)) from rfl]
    rw [fromDigits_toDigits k (n / 256), pow_succ, mul_comm ((256 : Nat) ^ k) 256, Nat.mod_mul]

theorem fromDigits_lt : ∀ l : List Nat, (∀ b ∈ l, b < 256) → fromDigits l < 256 ^ l.length
  | [], _ => by simp [fromDigits]
  | d :: l, h => by
    have hd : d < 256 := h d (by simp)
    have ih := fromDigits_lt l (fun b hb => h b (by simp [hb]))
    rw [show fromDigits (d :: l) = d + 256 * fromDigits l from rfl]
    rw [show (d :: l).length = l.length + 1 from rfl, pow_succ]
    omega

theorem fromDigits_inj : ∀ a b : List Nat, (∀ x ∈ a, x < 256) → (∀ x ∈ b, x < 256) →
    a.length = b.length → fromDigits a = fromDigits b → a = b
  | [], [], _, _, _, _ => rfl
  | [], y :: b, _, _, hl, _ => by simp at hl
  | x :: a, [], _, _, hl, _ => by simp at hl
  | x :: a, y :: b, ha, hb, hl, heq => by
    have hx : x < 256 := ha x (by simp)
    have hy : y < 256 := hb y (by simp)
    have heq' : x + 256 * fromDigits a = y + 256 * fromDigits b := heq
    have hxy : x = y ∧ fromDigits a = fromDigits b := by omega
    rw [hxy.1, fromDigits_inj a b (fun u hu => ha u (by simp [hu]))
      (fun u hu => hb u (by simp [hu])) (by simpa using hl) hxy.2]

/-- Any function from byte strings to 32-byte outputs identifies two distinct
33-byte inputs: the derived-key space is finite while the secret space is
not.  In particular no key-derivation function with the spec's signature can
make `Verify(Hash(s), s') = false` hold for all s' ≠ s. -/
theorem kdf_collision_exists (f : List Nat → List Nat)
    (hlen : ∀ p, (f p).length = 32) (hbyte : ∀ p, ∀ x ∈ f p, x < 256) :
    ∃ s s', s ≠ s' ∧ s.length = 33 ∧ s'.length = 33 ∧ f s = f s' := by
  have hcard : Fintype.card (Fin (256 ^ 32)) < Fintype.card (Fin (256 ^ 32 + 1)) := by
    simp only [Fintype.card_fin]
    omega
  obtain ⟨i, j, hij, hfij⟩ :=
    Fintype.exists_ne_map_eq_of_card_lt
      (fun i : Fin (256 ^ 32 + 1) =>
        (⟨fromDigits (f (toDigits 33 (i : Nat))), by
          have hlt := fromDigits_lt (f (toDigits 33 (i : Nat))) (hbyte _)
          rwa [hlen] at hlt⟩ : Fin (256 ^ 32)))
      hcard
  have hpow : 256 ^ 32 + 1 ≤ 256 ^ 33 := Nat.pow_lt_pow_right (by norm_num) (by omega)
  refine ⟨toDigits 33 (i : Nat), toDigits 33 (j : Nat), ?_,
    toDigits_length 33 (i : Nat), toDigits_length 33 (j : Nat), ?_⟩
  · intro he
    apply hij
    have h1 : (i : Nat) % 256 ^ 33 = (j : Nat) % 256 ^ 33 := by
      rw [← fromDigits_toDigits 33 (i : Nat), ← fromDigits_toDigits 33 (j : Nat), he]
    have hi : (i : Nat) < 256 ^ 33 := lt_of_lt_of_le i.isLt hpow
    have hj : (j : Nat) < 256 ^ 33 := lt_of_lt_of_le j.isLt hpow
    exact Fin.ext (by rwa [Nat.mod_eq_of_lt hi, Nat.mod_eq_of_lt hj] at h1)
  · have hvals := congrArg Fin.val hfij
    exact fromDigits_inj _ _ (hbyte _) (hbyte _) (by rw [hlen, hlen]) hvals

/-! ### The credential round trip -/

/-- The structural half of the spec's credential property, for an arbitrary
key-derivation function: verifying a freshly hashed credential reduces to the
constant-time comparison of the stored derived key with the recomputed one. -/
theorem verifyAccessKey_hashAccessKey (kdf : List Nat → List Nat → List Nat)
    (p p' salt : List Nat) (hk : ∀ b ∈ kdf p salt, b < 256)
    (hs : ∀ b ∈ salt, b < 256) (hsne : salt ≠ []) :
    verifyAccessKey kdf (hashAccessKey kdf p salt) p' =
      compareHashes (kdf p salt) (kdf p' salt) := by
  unfold hashAccessKey verifyAccessKey
  rw [splitHashedKey_two _ _ (encodeB64_no_colon _) (encodeB64_no_colon _)
    (by simpa [encodeB64_eq_nil_iff] using hsne)]
  simp [decodeB64_encodeB64 _ hk, decodeB64_encodeB64 _ hs]

/-- For every key-derivation function of the spec's shape and every salt,
some pair of distinct secrets verifies interchangeably: the claimed
"Verify(Hash(s), s') = false for all s' ≠ s" is unsatisfiable. -/
theorem verify_not_collision_free (kdf : List Nat → List Nat → List Nat) (salt : List Nat)
    (hlen : ∀ p, (kdf p salt).length = 32) (hbyte : ∀ p, ∀ x ∈ kdf p salt, x < 256)
    (hs : ∀ b ∈ salt, b < 256) (hsne : salt ≠ []) :
    ∃ s s', s ≠ s' ∧ verifyAccessKey kdf (hashAccessKey kdf s salt) s' = true := by
  obtain ⟨s, s', hne, -, -, hcol⟩ := kdf_collision_exists (fun p => kdf p salt) hlen hbyte
  refine ⟨s, s', hne, ?_⟩
  rw [verifyAccessKey_hashAccessKey kdf s s' salt (hbyte s) hs hsne]
  exact (compareHashes_eq_true _ _).mpr hcol

/-- Claim C5 (amended): for every secret s, verifying the stored form
produced by hashing s (32-byte fresh salt, fixed-parameter key derivation,
base64-derived-key colon base64-salt serialization) against s returns true;
and verifying it against any s' returns false exactly when the derived key
of s' under the extracted salt differs from that of s.  The original
unconditional form — false for every s' ≠ s — is impossible for a 32-byte
derived key (see `kdf_collision_exists`) and fails on the modelled
derivation function (see the counterexample theorem). -/
theorem verify_hash_iff_same_key (s s' salt : List Nat)
    (hs : ∀ b ∈ salt, b < 256) (hsne : salt ≠ []) :
    verifyAccessKey scryptKey (hashAccessKey scryptKey s salt) s = true ∧
    (verifyAccessKey scryptKey (hashAccessKey scryptKey s salt) s' = false ↔
      scryptKey s' salt ≠ scryptKey s salt) := by
  have hk : ∀ p : List Nat, ∀ b ∈ scryptKey p salt, b < 256 := fun p => toDigits_lt 32 _
  constructor
  · rw [verifyAccessKey_hashAccessKey scryptKey s s salt (hk s) hs hsne]
    exact (compareHashes_eq_true _ _).mpr rfl
  · rw [verifyAccessKey_hashAccessKey scryptKey s s' salt (hk s) hs hsne]
    constructor
    · intro hfalse heq
      have htrue : compareHashes (scryptKey s salt) (scryptKey s' salt) = true :=
        (compareHashes_eq_true _ _).mpr heq.symm
      rw [htrue] at hfalse
      cases hfalse
    · intro hne
      cases hcmp : compareHashes (scryptKey s salt) (scryptKey s' salt)
      · rfl
      · exact absurd ((compareHashes_eq_true _ _).mp hcmp) (fun he => hne he.symm)

/-- Witness for C5 (amended): a concrete six-byte secret verifies against
its own stored form. -/
theorem verify_hash_iff_same_key_witness :
    verifyAccessKey scryptKey
      (hashAccessKey scryptKey [97, 98, 99, 100, 101, 102] (List.replicate 32 1))
      [97, 98, 99, 100, 101, 102] = true :=
  (verify_hash_iff_same_key [97, 98, 99, 100, 101, 102] [1, 2, 3, 4, 5, 6]
    (List.replicate 32 1) (by decide) (by decide)).1

/-- Claim C5 counterexample: two distinct six-byte secrets collide under the
modelled key-derivation function, so the stored form of the first verifies
against the second — refuting "for every s' ≠ s, Verify(Hash(s), s') =
false" as stated.  `kdf_collision_exists` shows such pairs exist for every
32-byte-output derivation function, not only the modelled one. -/
theorem verify_accepts_colliding_secret :
    ([97, 97, 97, 97, 1, 131] : List Nat) ≠ [97, 97, 97, 97, 2, 0] ∧
    verifyAccessKey scryptKey
      (hashAccessKey scryptKey [97, 97, 97, 97, 1, 131] (List.replicate 32 1))
      [97, 97, 97, 97, 2, 0] = true := by
  constructor
  · decide
  · decide

/-- Claim C9: Verify is a total boolean function: it returns false whenever
the split yields a segment count other than two or either segment fails
base64 decoding; otherwise it equals the constant-time comparison of the
stored derived key with the recomputed one, which first requires exact
length equality and returns true exactly when the byte sequences are
equal. -/
theorem verify_total_fail_closed (hashedKey plainKey : List Nat) :
    ((splitHashedKey hashedKey).length ≠ 2 →
      verifyAccessKey scryptKey hashedKey plainKey = false) ∧
    (∀ p0 p1, splitHashedKey hashedKey = [p0, p1] →
      ((decodeB64 p0 = none ∨ decodeB64 p1 = none) →
        verifyAccessKey scryptKey hashedKey plainKey = false) ∧
      (∀ storedHash salt, decodeB64 p0 = some storedHash → decodeB64 p1 = some salt →
        verifyAccessKey scryptKey hashedKey plainKey =
          compareHashes storedHash (scryptKey plainKey salt) ∧
        (compareHashes storedHash (scryptKey plainKey salt) = true ↔
          storedHash = scryptKey plainKey salt) ∧
        (storedHash.length ≠ (scryptKey plainKey salt).length →
          compareHashes storedHash (scryptKey plainKey salt) = false))) := by
  constructor
  · intro hlen
    rcases hsp : splitHashedKey hashedKey with _ | ⟨p0, _ | ⟨p1, _ | ⟨p2, rest⟩⟩⟩
    · simp [verifyAccessKey, hsp]
    · simp [verifyAccessKey, hsp]
    · exact absurd (by rw [hsp]; rfl) hlen
    · simp [verifyAccessKey, hsp]
  · intro p0 p1 hsp
    constructor
    · intro hdec
      rcases hdec with hd | hd
      · rcases h2 : decodeB64 p1 with _ | salt <;> simp [verifyAccessKey, hsp, hd, h2]
      · rcases h2 : decodeB64 p0 with _ | sh <;> simp [verifyAccessKey, hsp, hd, h2]
    · intro storedHash salt hd0 hd1
      refine ⟨by simp [verifyAccessKey, hsp, hd0, hd1], compareHashes_eq_true _ _, ?_⟩
      intro hne
      unfold compareHashes
      rw [if_pos hne]

/-- Witness for C9: a stored form with a single segment is rejected. -/
theorem verify_total_fail_closed_witness :
    verifyAccessKey scryptKey [97] [97] = false :=
  (verify_total_fail_closed [97] [97]).1 (by decide)

end B2B
